import Mathlib

/-!
Shallow embedding of the crypto-tracker trade journal core (Metrics Engine,
Trade Store, export/import) and proofs about it.

JavaScript numbers are modelled as `Option ℚ`: `some q` is an ordinary finite
number, `none` models `NaN` (and `undefined`, which coerces to `NaN` in the
numeric positions these functions use).  JavaScript truthiness on numbers
(`!x` true for `undefined`, `null`, `NaN` and `0`) becomes `jsFalsy`.
`parseFloat(x.toFixed(p))` is modelled as exact decimal rounding `roundTo p`
(round half up); none of the concrete values used in theorems sit on a
rounding tie, so the tie convention is immaterial.
-/

/-- A JavaScript number: `some q` is a finite value, `none` is `NaN`. -/
abbrev JsNum := Option ℚ

/-- JavaScript falsiness of a number: `undefined`/`NaN`/`0` (i.e. `!x`). -/
def jsFalsy : JsNum → Bool
  | none => true
  | some q => q == 0

/-- JavaScript `isNaN`. -/
def jsIsNaN : JsNum → Bool
  | none => true
  | some _ => false

/-- Addition with NaN propagation. -/
def jadd : JsNum → JsNum → JsNum
  | some a, some b => some (a + b)
  | _, _ => none

/-- Subtraction with NaN propagation. -/
def jsub : JsNum → JsNum → JsNum
  | some a, some b => some (a - b)
  | _, _ => none

/-- Multiplication with NaN propagation. -/
def jmul : JsNum → JsNum → JsNum
  | some a, some b => some (a * b)
  | _, _ => none

/-- Division with NaN propagation.  A zero denominator yields `none`; every
division in the embedded code is guarded so that a zero denominator is
unreachable, hence the Infinity case of JavaScript division never arises. -/
def jdiv : JsNum → JsNum → JsNum
  | some a, some b => if b = 0 then none else some (a / b)
  | _, _ => none

/-- `Math.abs` with NaN propagation. -/
def jabs : JsNum → JsNum
  | some a => some |a|
  | none => none

/-- Strict comparison `x > y`; false when either side is NaN. -/
def jgt : JsNum → JsNum → Bool
  | some a, some b => a > b
  | _, _ => false

/-- Strict comparison `x < y`; false when either side is NaN. -/
def jlt : JsNum → JsNum → Bool
  | some a, some b => a < b
  | _, _ => false

/-- Exact decimal rounding to `p` places (models `parseFloat(x.toFixed(p))`). -/
def roundTo (p : ℕ) (x : ℚ) : ℚ :=
  (⌊x * (10 : ℚ) ^ p + 1 / 2⌋ : ℚ) / (10 : ℚ) ^ p

/-- `roundTo` lifted to JavaScript numbers (`NaN.toFixed` parses back to NaN). -/
def jround (p : ℕ) : JsNum → JsNum
  | some q => some (roundTo p q)
  | none => none

/-- `x || 0`: JavaScript falsy-default, used for optional numeric fields. -/
def jorZero (x : JsNum) : JsNum :=
  if jsFalsy x then some 0 else x

/-- Trade side (`"buy" | "sell"`). -/
inductive Side where
  | buy
  | sell
deriving DecidableEq, Repr

namespace Utils
/-!
The Metrics Engine: `src/modules/TradeTracker/utils.ts` (the top-level utils
module).  Each definition mirrors the TypeScript function of the same name.
-/

/-- `calculateRR(entryPrice, stopLoss, takeProfit)` from utils.ts lines 8-19:
returns 0 on any falsy or NaN input, 0 when risk is zero, else
`round2(|takeProfit - entryPrice| / |entryPrice - stopLoss|)`. -/
def calculateRR (entryPrice stopLoss takeProfit : JsNum) : JsNum :=
  if jsFalsy entryPrice || jsFalsy stopLoss || jsFalsy takeProfit
      || jsIsNaN entryPrice || jsIsNaN stopLoss || jsIsNaN takeProfit then
    some 0
  else
    let risk := jabs (jsub entryPrice stopLoss)
    let reward := jabs (jsub takeProfit entryPrice)
    if risk == some 0 then some 0 else jround 2 (jdiv reward risk)

/-- `calculateRealizedRR(entryPrice, exitPrice, stopLoss)` from utils.ts
lines 24-31 (note the parameter order: exit before stop). -/
def calculateRealizedRR (entryPrice exitPrice stopLoss : JsNum) : JsNum :=
  if jsFalsy entryPrice || jsFalsy exitPrice || jsFalsy stopLoss then
    some 0
  else
    let risk := jabs (jsub entryPrice stopLoss)
    let realizedReward := jabs (jsub exitPrice entryPrice)
    if risk == some 0 then some 0 else jround 2 (jdiv realizedReward risk)

/-- `calculatePnL(side, entryPrice, exitPrice, quantity, fee = 0)` from
utils.ts lines 36-48. -/
def calculatePnL (side : Side) (entryPrice exitPrice quantity : JsNum)
    (fee : JsNum := some 0) : JsNum :=
  if jsFalsy entryPrice || jsFalsy exitPrice || jsFalsy quantity then
    some 0
  else
    let rawPnL :=
      match side with
      | .buy => jmul (jsub exitPrice entryPrice) quantity
      | .sell => jmul (jsub entryPrice exitPrice) quantity
    jround 2 (jsub rawPnL fee)

/-- `calculatePositionSize(riskAmount, entryPrice, stopLoss)` from utils.ts
lines 53-67.  The function takes exactly three parameters: it has no
leverage parameter, although its caller in hooks/useTradeForm.ts passes a
fourth `leverage` argument, which is therefore ignored at runtime. -/
def calculatePositionSize (riskAmount entryPrice stopLoss : JsNum) : JsNum :=
  if jsFalsy riskAmount || jsFalsy entryPrice || jsFalsy stopLoss
      || jsIsNaN riskAmount || jsIsNaN entryPrice || jsIsNaN stopLoss then
    some 0
  else
    let riskPercentage := jabs (jdiv (jsub entryPrice stopLoss) entryPrice)
    if riskPercentage == some 0 then some 0
    else jround 4 (jdiv riskAmount riskPercentage)

/-- `calculateQuantity(positionSize, entryPrice)` from utils.ts lines 72-82. -/
def calculateQuantity (positionSize entryPrice : JsNum) : JsNum :=
  if jsFalsy positionSize || jsFalsy entryPrice
      || jsIsNaN positionSize || jsIsNaN entryPrice then
    some 0
  else
    jround 6 (jdiv positionSize entryPrice)

end Utils

namespace UtilsV17
/-!
`src/unnamed/part_017` is another revision of the utils module present in the
repository.  Its `calculatePositionSize` carries the `leverage = 1` parameter
and multiplies by it; the revision at `src/modules/TradeTracker/utils.ts`
dropped that parameter while the caller in hooks/useTradeForm.ts still passes
it.
-/

/-- `calculatePositionSize(riskAmount, entryPrice, stopLoss, leverage = 1)`
from src/unnamed/part_017: the leveraged variant. -/
def calculatePositionSize (riskAmount entryPrice stopLoss : JsNum)
    (leverage : JsNum := some 1) : JsNum :=
  if jsFalsy riskAmount || jsFalsy entryPrice || jsFalsy stopLoss
      || jsFalsy leverage || jsIsNaN riskAmount || jsIsNaN entryPrice
      || jsIsNaN stopLoss || jsIsNaN leverage then
    some 0
  else
    let riskPercentage := jabs (jdiv (jsub entryPrice stopLoss) entryPrice)
    if riskPercentage == some 0 then some 0
    else jround 4 (jmul (jdiv riskAmount riskPercentage) leverage)

end UtilsV17

namespace TableUtils
/-!
The table-local duplicate metric functions used by the cell-edit path
(`src/modules/TradeTracker/components/TradeTable/utils`, given as
src/unnamed/part_013).  Unlike the Metrics Engine versions, these have no
falsy/NaN input guards.
-/

/-- Table-local `calculateRR(entryPrice, stopLoss, takeProfit)`: no input
guard, only the zero-risk guard. -/
def calculateRR (entryPrice stopLoss takeProfit : JsNum) : JsNum :=
  let risk := jabs (jsub entryPrice stopLoss)
  let reward := jabs (jsub takeProfit entryPrice)
  if risk == some 0 then some 0 else jround 2 (jdiv reward risk)

/-- Table-local `calculateRealizedRR(entryPrice, stopLoss, exitPrice)` (note
the parameter order: stop before exit, unlike the Metrics Engine version). -/
def calculateRealizedRR (entryPrice stopLoss exitPrice : JsNum) : JsNum :=
  let risk := jabs (jsub entryPrice stopLoss)
  let realizedReward := jabs (jsub exitPrice entryPrice)
  if risk == some 0 then some 0 else jround 2 (jdiv realizedReward risk)

/-- Table-local `calculatePnL(side, entryPrice, exitPrice, quantity, fee = 0)`:
no input guard. -/
def calculatePnL (side : Side) (entryPrice exitPrice quantity : JsNum)
    (fee : JsNum := some 0) : JsNum :=
  let rawPnL :=
    match side with
    | .buy => jmul (jsub exitPrice entryPrice) quantity
    | .sell => jmul (jsub entryPrice exitPrice) quantity
  jround 2 (jsub rawPnL fee)

end TableUtils

/-- `TradeRecord` from src/modules/TradeTracker/components/TradeTable/types.ts
(src/unnamed/part_010): one logged trade.  `uid` models the optional MongoDB
`_id`; numeric fields are JavaScript numbers. -/
structure TradeRecord where
  uid : Option String
  symbol : String
  timeframe : String
  side : Side
  riskAmount : JsNum
  leverage : JsNum
  entryPrice : JsNum
  stopLoss : JsNum
  takeProfit : JsNum
  rr : JsNum
  quantity : JsNum
  positionSize : JsNum
  strategy : String
  exitPrice : JsNum
  pnl : JsNum
  realizedRR : JsNum
  fee : JsNum
  note : String
  entryTime : String
  exitTime : String
deriving DecidableEq, Repr

/-- The record returned by `getTradeStats`.  `profitFactor` lives in
`Option (WithTop ℚ)`: `some ⊤` is JavaScript `Infinity`, `none` is `NaN`. -/
structure TradeStats where
  totalTrades : ℕ
  winningTrades : ℕ
  losingTrades : ℕ
  winRate : JsNum
  totalPnL : JsNum
  averageRR : JsNum
  averageRealizedRR : JsNum
  profitFactor : Option (WithTop ℚ)
deriving DecidableEq

/-- `trades.reduce((sum, trade) => sum + f(trade), 0)` over JavaScript
numbers. -/
def sumBy (f : TradeRecord → JsNum) (trades : List TradeRecord) : JsNum :=
  trades.foldl (fun acc t => jadd acc (f t)) (some 0)

namespace Utils

/-- `getTradeStats(trades)` from utils.ts lines 153-187 (the identical copy
inside the store, tradeStore.ts lines 516-552, is the same code over
`get().trades`). -/
def getTradeStats (trades : List TradeRecord) : TradeStats :=
  if trades.length = 0 then
    { totalTrades := 0, winningTrades := 0, losingTrades := 0
      winRate := some 0, totalPnL := some 0, averageRR := some 0
      averageRealizedRR := some 0, profitFactor := some ((0 : ℚ) : WithTop ℚ) }
  else
    let winningTrades := trades.filter (fun t => jgt t.pnl (some 0))
    let losingTrades := trades.filter (fun t => jlt t.pnl (some 0))
    let totalPnL := sumBy (fun t => t.pnl) trades
    let totalProfit := sumBy (fun t => t.pnl) winningTrades
    let totalLoss := jabs (sumBy (fun t => t.pnl) losingTrades)
    let averageRR := jdiv (sumBy (fun t => t.rr) trades) (some trades.length)
    let averageRealizedRR :=
      jdiv (sumBy (fun t => t.realizedRR) trades) (some trades.length)
    { totalTrades := trades.length
      winningTrades := winningTrades.length
      losingTrades := losingTrades.length
      winRate := some (roundTo 2 ((winningTrades.length * 100 : ℚ) / trades.length))
      totalPnL := jround 2 totalPnL
      averageRR := jround 2 averageRR
      averageRealizedRR := jround 2 averageRealizedRR
      profitFactor :=
        if totalLoss == some 0 then some ⊤
        else (jround 2 (jdiv totalProfit totalLoss)).map (fun q => (q : WithTop ℚ)) }

end Utils

/-- A value held in a dynamically-typed slot (a form field or a parsed cell
value): a string, a JavaScript number, or a side. -/
inductive JsVal where
  | str (s : String)
  | num (x : JsNum)
  | vside (s : Side)
deriving DecidableEq, Repr

/-- `Number(v)` on a `JsVal` as used in updateTradeWithCalculations: numbers
pass through; `Number("") = 0`, other strings are not produced by the numeric
cell inputs and coerce to NaN; sides ("buy"/"sell") coerce to NaN. -/
def jsToNumber : JsVal → JsNum
  | .num x => x
  | .str s => if s = "" then some 0 else none
  | .vside _ => none

/-- Write one dynamically-named field of a trade (`{ ...trade, [fieldId]:
value }`).  Fields keep their interface types because every value reaching
this assignment went through `parseFormValue`, which yields numbers for the
numeric columns and strings for the text columns; a mistyped pair leaves the
record unchanged. -/
def setTradeField (t : TradeRecord) (fieldId : String) (v : JsVal) : TradeRecord :=
  match fieldId, v with
  | "symbol", .str s => { t with symbol := s }
  | "timeframe", .str s => { t with timeframe := s }
  | "side", .vside s => { t with side := s }
  | "riskAmount", .num x => { t with riskAmount := x }
  | "leverage", .num x => { t with leverage := x }
  | "entryPrice", .num x => { t with entryPrice := x }
  | "stopLoss", .num x => { t with stopLoss := x }
  | "takeProfit", .num x => { t with takeProfit := x }
  | "rr", .num x => { t with rr := x }
  | "quantity", .num x => { t with quantity := x }
  | "positionSize", .num x => { t with positionSize := x }
  | "strategy", .str s => { t with strategy := s }
  | "exitPrice", .num x => { t with exitPrice := x }
  | "pnl", .num x => { t with pnl := x }
  | "realizedRR", .num x => { t with realizedRR := x }
  | "fee", .num x => { t with fee := x }
  | "note", .str s => { t with note := s }
  | "entryTime", .str s => { t with entryTime := s }
  | "exitTime", .str s => { t with exitTime := s }
  | _, _ => t

/-- `updateTradeWithCalculations(trade, fieldId, parsedValue)` from
EditableCell.tsx lines 44-74: writes the edited field, then recomputes `rr`
(and `realizedRR` when an exit price is present) only when the edited field
is entryPrice/stopLoss/takeProfit, and recomputes `pnl` only when the edited
field is entryPrice/exitPrice/quantity/side/fee and entry, exit and quantity
are all truthy.  Uses the table-local duplicate metric functions. -/
def updateTradeWithCalculations (trade : TradeRecord) (fieldId : String)
    (parsedValue : JsVal) : TradeRecord :=
  let updatedTrade := setTradeField trade fieldId parsedValue
  let updatedTrade :=
    if (["entryPrice", "stopLoss", "takeProfit"]).contains fieldId then
      let entryPrice :=
        if fieldId == "entryPrice" then jsToNumber parsedValue else trade.entryPrice
      let stopLoss :=
        if fieldId == "stopLoss" then jsToNumber parsedValue else trade.stopLoss
      let takeProfit :=
        if fieldId == "takeProfit" then jsToNumber parsedValue else trade.takeProfit
      let withRR :=
        { updatedTrade with rr := TableUtils.calculateRR entryPrice stopLoss takeProfit }
      if !jsFalsy withRR.exitPrice then
        { withRR with realizedRR :=
            TableUtils.calculateRealizedRR entryPrice stopLoss withRR.exitPrice }
      else withRR
    else updatedTrade
  if (["entryPrice", "exitPrice", "quantity", "side", "fee"]).contains fieldId then
    if !jsFalsy updatedTrade.entryPrice && !jsFalsy updatedTrade.exitPrice
        && !jsFalsy updatedTrade.quantity then
      let side :=
        if fieldId == "side" then
          match parsedValue with
          | .vside s => s
          | _ => trade.side
        else trade.side
      let entryPrice :=
        if fieldId == "entryPrice" then jsToNumber parsedValue else trade.entryPrice
      let exitPrice :=
        if fieldId == "exitPrice" then jsToNumber parsedValue else trade.exitPrice
      let quantity :=
        if fieldId == "quantity" then jsToNumber parsedValue else trade.quantity
      let fee :=
        if fieldId == "fee" then jsToNumber parsedValue else jorZero trade.fee
      { updatedTrade with pnl := TableUtils.calculatePnL side entryPrice exitPrice quantity fee }
    else updatedTrade
  else updatedTrade

/-- Association-list update `{ ...m, [k]: v }`: overwrite an existing key in
place, else append. -/
def assocSet (m : List (String × JsVal)) (k : String) (v : JsVal) :
    List (String × JsVal) :=
  match m with
  | [] => [(k, v)]
  | (k', v') :: rest =>
    if k' = k then (k, v) :: rest else (k', v') :: assocSet rest k v

/-- Association-list key deletion (`delete obj[k]`). -/
def assocErase (m : List (String × String)) (k : String) : List (String × String) :=
  m.filter (fun kv => kv.1 ≠ k)

/-- Association-list lookup. -/
def assocGet (m : List (String × JsVal)) (k : String) : Option JsVal :=
  match m with
  | [] => none
  | (k', v') :: rest => if k' = k then some v' else assocGet rest k

/-- The Trade Store state (tradeStore.ts lines 7-50): the trade collection,
the loading/error flags and the form slice.  `formData` is the partial draft
as an association list. -/
structure StoreState where
  trades : List TradeRecord
  isLoading : Bool
  error : Option String
  formData : List (String × JsVal)
  isSubmitting : Bool
  formError : Option String
  showForm : Bool
  isEditMode : Bool
  editingTradeId : Option String
  validationErrors : List (String × String)
deriving DecidableEq, Repr

/-- `updateFormField(field, value)` from tradeStore.ts lines 387-410: merges
the one field into the draft, clears the validation error of that field and the
form error — and nothing else.  (The `side` special case stores the same
value, so both branches produce this state.) -/
def updateFormField (st : StoreState) (field : String) (value : JsVal) :
    StoreState :=
  { st with
    formData := assocSet st.formData field value
    formError := none
    validationErrors := assocErase st.validationErrors field }

/-- Outcome of one HTTP request: `ok` carries the parsed response body,
`httpError` a non-2xx status (`!response.ok`). -/
inductive FetchOutcome (α : Type) where
  | ok (body : α)
  | httpError (status : ℕ) (statusText : String)
deriving DecidableEq, Repr

/-- The backend-to-frontend field mapping applied by `fetchTrades`
(tradeStore.ts lines 81-102): string extras default to `""`, numeric extras
to `0` via `||`. -/
def mapFetchedTrade (t : TradeRecord) : TradeRecord :=
  { t with
    strategy := t.strategy
    exitPrice := jorZero t.exitPrice
    pnl := jorZero t.pnl
    realizedRR := jorZero t.realizedRR
    fee := jorZero t.fee
    note := t.note
    exitTime := t.exitTime }

/-- `fetchTrades()` from tradeStore.ts lines 67-111, as the trace of store
states it writes, in order: set loading and clear the error; on success
replace the collection with the mapped server data; finally clear loading. -/
def fetchTradesTrace (st : StoreState) (resp : FetchOutcome (List TradeRecord)) :
    List StoreState :=
  let s1 := { st with isLoading := true, error := none }
  match resp with
  | .ok data =>
    let s2 := { s1 with trades := data.map mapFetchedTrade }
    [s1, s2, { s2 with isLoading := false }]
  | .httpError status statusText =>
    let s2 := { s1 with
      error := some ("Failed to fetch trades: " ++ toString status ++ " " ++ statusText) }
    [s1, s2, { s2 with isLoading := false }]

/-- `addTrade(trade)` from tradeStore.ts lines 113-172, as the trace of store
states: set loading, optimistically append, then on success splice in the
server record (matched by symbol + entryPrice + entryTime on records without
an id), on failure record the error and keep the optimistic append; finally
clear loading. -/
def addTradeTrace (st : StoreState) (trade : TradeRecord)
    (resp : FetchOutcome TradeRecord) : List StoreState :=
  let s1 := { st with isLoading := true, error := none }
  let s2 := { s1 with trades := s1.trades ++ [trade] }
  match resp with
  | .ok createdTrade =>
    let s3 := { s2 with trades := s2.trades.map (fun t =>
      if t.symbol = trade.symbol && t.entryPrice == trade.entryPrice
          && t.entryTime = trade.entryTime && t.uid = none
      then createdTrade else t) }
    [s1, s2, s3, { s3 with isLoading := false }]
  | .httpError status statusText =>
    let s3 := { s2 with
      error := some ("Failed to add trade: " ++ toString status ++ " " ++ statusText) }
    [s1, s2, s3, { s3 with isLoading := false }]

/-- `deleteTrade(id)` from tradeStore.ts lines 315-340, as the trace of store
states.  On failure the catch block records the error and calls
`fetchTrades()` without awaiting it: the synchronous prefix of the reload (set
loading, clear error) runs, then the `finally` of `deleteTrade` clears loading,
then the reload response lands (states of `fetchTradesTrace` from there on).
-/
def deleteTradeTrace (st : StoreState) (id : String)
    (delResp : FetchOutcome Unit)
    (reloadResp : FetchOutcome (List TradeRecord)) : List StoreState :=
  let s1 := { st with isLoading := true, error := none }
  let s2 := { s1 with trades := s1.trades.filter (fun t => t.uid != some id) }
  match delResp with
  | .ok _ => [s1, s2, { s2 with isLoading := false }]
  | .httpError status statusText =>
    let s3 := { s2 with
      error := some ("Failed to delete trade: " ++ toString status ++ " " ++ statusText) }
    let s4 := { s3 with isLoading := true, error := none }
    let s5 := { s4 with isLoading := false }
    match reloadResp with
    | .ok data =>
      let s6 := { s5 with trades := data.map mapFetchedTrade }
      [s1, s2, s3, s4, s5, s6, { s6 with isLoading := false }]
    | .httpError status' statusText' =>
      let s6 := { s5 with
        error := some ("Failed to fetch trades: " ++ toString status' ++ " " ++ statusText') }
      [s1, s2, s3, s4, s5, s6, { s6 with isLoading := false }]

/-- The final store state after the trace of an operation. -/
def finalState (trace : List StoreState) (fallback : StoreState) : StoreState :=
  trace.getLastD fallback

/-- Form values as seen by the zod schema `tradeFormSchema`
(src/unnamed/part_016) after the coercions of `z.coerce.number()`: a missing
or non-numeric coerced field is `none` (NaN), which fails with the
invalid-type message; `riskAmount` is `.optional()`, so absence is a separate
state that passes. -/
structure TradeFormValues where
  symbol : String
  side : Side
  timeframe : Option String
  riskAmount : Option JsNum
  entryPrice : JsNum
  stopLoss : JsNum
  takeProfit : JsNum
  strategy : Option String
  note : Option String
  rr : Option JsNum
  positionSize : Option JsNum
  quantity : Option JsNum
deriving DecidableEq, Repr

/-- Issues of the base object schema of `tradeFormSchema` (before the
`.refine` chain), as (field path, message) pairs in field order. -/
def tradeFormBaseIssues (v : TradeFormValues) : List (String × String) :=
  (if v.symbol.length < 1 then [("symbol", "Symbol is required")] else [])
  ++ (match v.riskAmount with
      | some none => [("riskAmount", "Risk amount must be a valid number")]
      | some (some r) => if r < 0 then [("riskAmount", "Risk amount must be positive")] else []
      | none => [])
  ++ (match v.entryPrice with
      | none => [("entryPrice", "Entry price must be a valid number")]
      | some e => if e < 0 then [("entryPrice", "Entry price is required")] else [])
  ++ (match v.stopLoss with
      | none => [("stopLoss", "Stop loss must be a valid number")]
      | some s => if s < 0 then [("stopLoss", "Stop loss is required")] else [])
  ++ (match v.takeProfit with
      | none => [("takeProfit", "Take profit must be a valid number")]
      | some t => if t < 0 then [("takeProfit", "Take profit is required")] else [])

/-- Issues of the four side-aware `.refine` price-ordering rules of
`tradeFormSchema`.  In zod a failing (non-fatal) refinement marks the result
dirty but later refinements still run, so all four are checked. -/
def tradeFormRefineIssues (v : TradeFormValues) : List (String × String) :=
  match v.entryPrice, v.stopLoss, v.takeProfit with
  | some e, some s, some t =>
    (match v.side with
     | .buy =>
       (if s < e then [] else [("stopLoss", "For buy orders, stop loss must be below entry price")])
       ++ (if t > e then [] else [("takeProfit", "For buy orders, take profit must be above entry price")])
     | .sell =>
       (if s > e then [] else [("stopLoss", "For sell orders, stop loss must be above entry price")])
       ++ (if t < e then [] else [("takeProfit", "For sell orders, take profit must be below entry price")]))
  | _, _, _ => []

/-- Full validation by `tradeFormSchema`: base object issues; the refinement
chain runs only when the base object parses cleanly. -/
def validateTradeForm (v : TradeFormValues) : List (String × String) :=
  let base := tradeFormBaseIssues v
  if base.isEmpty then tradeFormRefineIssues v else base

/-- Outcome of submitting the trade form. -/
inductive SubmitOutcome where
  | rejected (fieldErrors : List (String × String))
  | submitted (values : TradeFormValues)
deriving DecidableEq, Repr

/-- The submission pipeline of useTradeForm.ts: the form is wired through
`zodResolver(tradeFormSchema)` and the react-hook-form `handleSubmit`, whose
documented contract is: run the resolver; when it reports issues, write them
into the per-field error map and do not call the submit callback; otherwise
call the submit callback (which routes to the store create/update path and the
network). -/
def handleTradeSubmit (v : TradeFormValues) : SubmitOutcome :=
  let issues := validateTradeForm v
  if issues.isEmpty then .submitted v else .rejected issues

/-- Number of create network calls an outcome performs: only a submission
that reached the callback can call the store (and thence `fetch`). -/
def createNetworkCalls : SubmitOutcome → ℕ
  | .rejected _ => 0
  | .submitted _ => 1

/-- JSON values (the image of `JSON.parse`). -/
inductive Json where
  | null
  | bool (b : Bool)
  | num (q : ℚ)
  | str (s : String)
  | arr (elems : List Json)
  | obj (fields : List (String × Json))

/-- A JavaScript number serialized by `JSON.stringify`: NaN becomes `null`. -/
def jsNumToJson : JsNum → Json
  | some q => .num q
  | none => .null

/-- The wire string of a side. -/
def sideToString : Side → String
  | .buy => "buy"
  | .sell => "sell"

/-- `JSON.stringify` of one `TradeRecord`, keyed as in the interface
(src/unnamed/part_010); an absent `_id` is omitted, as `JSON.stringify`
drops `undefined` properties. -/
def tradeToJson (t : TradeRecord) : Json :=
  .obj ((match t.uid with
         | some s => [("_id", Json.str s)]
         | none => [])
    ++ [("symbol", .str t.symbol), ("timeframe", .str t.timeframe),
        ("side", .str (sideToString t.side)),
        ("riskAmount", jsNumToJson t.riskAmount),
        ("leverage", jsNumToJson t.leverage),
        ("entryPrice", jsNumToJson t.entryPrice),
        ("stopLoss", jsNumToJson t.stopLoss),
        ("takeProfit", jsNumToJson t.takeProfit),
        ("rr", jsNumToJson t.rr), ("quantity", jsNumToJson t.quantity),
        ("positionSize", jsNumToJson t.positionSize),
        ("strategy", .str t.strategy),
        ("exitPrice", jsNumToJson t.exitPrice), ("pnl", jsNumToJson t.pnl),
        ("realizedRR", jsNumToJson t.realizedRR), ("fee", jsNumToJson t.fee),
        ("note", .str t.note), ("entryTime", .str t.entryTime),
        ("exitTime", .str t.exitTime)])

/-- `exportTrades(trades)` from tradeExportImport.ts lines 8-46: an empty
collection only alerts and exports nothing; otherwise the downloaded file
holds the JSON array of the records.  `JSON.parse` of that file recovers this
`Json` value exactly (stringify/parse is the identity on this fragment), so
the exported value doubles as the parsed import input. -/
def exportTrades (trades : List TradeRecord) : Option Json :=
  if trades.isEmpty then none else some (.arr (trades.map tradeToJson))

/-- `typeof trade === "object" && trade !== null`: in JavaScript both plain
objects and arrays pass this test; `JSON.parse` output contains nothing else
object-typed. -/
def jsObjLike : Json → Bool
  | .obj _ => true
  | .arr _ => true
  | _ => false

/-- `key in trade` for parsed JSON: object key membership.  On an array, `in`
checks array indices ("0", "1", …) and array method names; the keys the
importer probes ("id", "symbol", "entryPrice") are none of those, so an
array element never has them. -/
def jsHasKey : Json → String → Bool
  | .obj fields, k => fields.any (fun kv => kv.1 == k)
  | _, _ => false

/-- The validation half of `importTrades()` from tradeExportImport.ts lines
86-109, applied to the parsed file content: the data must be an array and
every element must be object-like with the keys `id`, `symbol` and
`entryPrice`, else the whole batch is rejected. -/
def importTradesValidate (j : Json) : Except String (List Json) :=
  match j with
  | .arr trades =>
    if trades.all (fun t =>
        jsObjLike t && jsHasKey t "id" && jsHasKey t "symbol" && jsHasKey t "entryPrice")
    then .ok trades
    else .error "Invalid trades data: missing required fields"
  | _ => .error "Invalid trades data: not an array"

/-- Export followed by re-import of the produced file. -/
def exportImportRoundTrip (trades : List TradeRecord) :
    Option (Except String (List Json)) :=
  (exportTrades trades).map importTradesValidate

/-- A concrete winning trade used in concrete instantiations. -/
def sampleTradeWin : TradeRecord :=
  { uid := some "w1", symbol := "BTCUSDT", timeframe := "M30", side := .buy
    riskAmount := some 100, leverage := some 1, entryPrice := some 100
    stopLoss := some 95, takeProfit := some 110, rr := some 2
    quantity := some 1, positionSize := some 100, strategy := ""
    exitPrice := some 110, pnl := some 10, realizedRR := some 2
    fee := some 0, note := "", entryTime := "2024-01-01T00:00:00.000Z"
    exitTime := "2024-01-02T00:00:00.000Z" }

/-- A concrete losing trade used in concrete instantiations. -/
def sampleTradeLoss : TradeRecord :=
  { sampleTradeWin with
    uid := some "l1", exitPrice := some 95, pnl := some (-5)
    realizedRR := some 1 }

/-- A concrete trade with an exit price whose derived fields are consistent
(realizedRR 1 equals the realized risk-reward of entry 100, stop 95,
exit 105). -/
def sampleTradeWithExit : TradeRecord :=
  { sampleTradeWin with
    uid := some "t1", exitPrice := some 105, pnl := some 5
    realizedRR := some 1 }

/-- A concrete store state whose form draft has consistent derived fields
(rr 2 equals the risk-reward of entry 100, stop 95, take profit 110). -/
def sampleDraftState : StoreState :=
  { trades := [], isLoading := false, error := none
    formData := [("entryPrice", .num (some 100)), ("stopLoss", .num (some 95)),
                 ("takeProfit", .num (some 110)), ("rr", .num (some 2))]
    isSubmitting := false, formError := none, showForm := true
    isEditMode := false, editingTradeId := none, validationErrors := [] }

/-- A concrete idle store state holding one persisted trade. -/
def sampleStoreState : StoreState :=
  { trades := [sampleTradeWithExit], isLoading := false, error := none
    formData := [], isSubmitting := false, formError := none, showForm := false
    isEditMode := false, editingTradeId := none, validationErrors := [] }

/-- Concrete form values for a long trade whose stop loss sits above the
entry price (otherwise valid). -/
def sampleBuyBadStop : TradeFormValues :=
  { symbol := "BTCUSDT", side := .buy, timeframe := some "M30"
    riskAmount := none, entryPrice := some 100, stopLoss := some 102
    takeProfit := some 110, strategy := some "", note := some ""
    rr := some (some 0), positionSize := some (some 0), quantity := some (some 0) }
/-- C1: the claim says positionSize multiplies by the leverage argument
(default 1), so positionSize(1000, 100, 95, 2) would be 40000.0000; but the
Metrics Engine calculatePositionSize in utils.ts takes only three parameters
and ignores the leverage its caller passes, returning 20000.0000 regardless —
while the part_017 revision of the same function, which does carry the
leverage parameter, returns 40000.0000 as the claim describes.  The claimed
example positionSize(1000, 100, 95) = 20000.0000 does hold. -/
theorem positionSize_leverage_ignored :
    Utils.calculatePositionSize (some 1000) (some 100) (some 95) = some 20000 ∧
    UtilsV17.calculatePositionSize (some 1000) (some 100) (some 95) (some 2) = some 40000 ∧
    Utils.calculatePositionSize (some 1000) (some 100) (some 95) ≠ some 40000 := by
  refine ⟨?_, ?_, ?_⟩
  · norm_num [Utils.calculatePositionSize, jsFalsy, jsIsNaN, jsub, jabs, jdiv, jround, roundTo,
      abs_div]
  · norm_num [UtilsV17.calculatePositionSize, jsFalsy, jsIsNaN, jsub, jabs, jdiv, jmul, jround,
      roundTo, abs_div]
  · norm_num [Utils.calculatePositionSize, jsFalsy, jsIsNaN, jsub, jabs, jdiv, jround, roundTo,
      abs_div]

/-- C7 (amended): for supplied, non-zero numeric inputs, riskRewardRatio
equals round(|takeProfit - entryPrice| / |entryPrice - stopLoss|, 2) when
entryPrice differs from stopLoss, and is exactly 0 when entryPrice equals
stopLoss; it is also exactly 0 when any argument is missing, non-numeric, or
zero (the zero-input clause is the amendment), and the embedding is a total
function, so it never throws. -/
theorem calculateRR_spec :
    (∀ e s t : ℚ, e ≠ 0 → s ≠ 0 → t ≠ 0 →
      Utils.calculateRR (some e) (some s) (some t) =
        if e = s then some 0 else some (roundTo 2 (|t - e| / |e - s|))) ∧
    (∀ a b : JsNum,
      Utils.calculateRR none a b = some 0 ∧
      Utils.calculateRR a none b = some 0 ∧
      Utils.calculateRR a b none = some 0 ∧
      Utils.calculateRR (some 0) a b = some 0 ∧
      Utils.calculateRR a (some 0) b = some 0 ∧
      Utils.calculateRR a b (some 0) = some 0) := by
  constructor
  · intro e s t he hs ht
    simp only [Utils.calculateRR, jsFalsy, jsIsNaN, jsub, jabs, jdiv, jround]
    simp only [beq_iff_eq, he, hs, ht, Option.some.injEq]
    by_cases hes : e = s
    · simp [hes, he, hs, ht]
    · have h1 : |e - s| ≠ 0 := by
        simp [sub_eq_zero, hes]
      simp [he, hs, ht, hes, h1, sub_eq_zero]
  · intro a b
    refine ⟨?_, ?_, ?_, ?_, ?_, ?_⟩ <;>
      cases a <;> cases b <;> simp [Utils.calculateRR, jsFalsy, jsIsNaN]

/-- C7 counterexample: at entryPrice 100, stopLoss 95, takeProfit 0 — all
supplied and numeric with entryPrice distinct from stopLoss — the code
returns 0, while the claimed formula gives round(|0 - 100| / |100 - 95|, 2)
= 20. -/
theorem calculateRR_zero_input_cex :
    Utils.calculateRR (some 100) (some 95) (some 0) = some 0 ∧
    roundTo 2 (|(0 : ℚ) - 100| / |(100 : ℚ) - 95|) = 20 ∧ (0 : ℚ) ≠ 20 := by
  refine ⟨?_, ?_, by norm_num⟩
  · simp [Utils.calculateRR, jsFalsy]
  · norm_num [roundTo, abs_div]

/-- C7 witness: the amended theorem instantiated at (100, 95, 110), where
the formula branch applies and evaluates to 2. -/
theorem calculateRR_spec_witness :
    Utils.calculateRR (some 100) (some 95) (some 110) =
      (if (100 : ℚ) = 95 then some 0 else some (roundTo 2 (|(110 : ℚ) - 100| / |(100 : ℚ) - 95|))) ∧
    (if (100 : ℚ) = 95 then (some 0 : JsNum) else some (roundTo 2 (|(110 : ℚ) - 100| / |(100 : ℚ) - 95|))) = some 2 := by
  refine ⟨calculateRR_spec.1 100 95 110 (by norm_num) (by norm_num) (by norm_num), ?_⟩
  rw [if_neg (by norm_num)]
  norm_num [roundTo, abs_div]

/-- C8: profitAndLoss returns round((exit - entry) * quantity - fee, 2) for
a long and round((entry - exit) * quantity - fee, 2) for a short position,
with fee defaulting to 0; it returns 0 whenever entryPrice, exitPrice or
quantity is missing or zero; and the two claimed examples evaluate to
1995.00 and 2000.00. -/
theorem calculatePnL_spec :
    (∀ (side : Side) (e x q f : ℚ), e ≠ 0 → x ≠ 0 → q ≠ 0 →
      Utils.calculatePnL side (some e) (some x) (some q) (some f) =
        some (roundTo 2 ((match side with | .buy => x - e | .sell => e - x) * q - f))) ∧
    (∀ (side : Side) (a b : JsNum) (f : JsNum),
      Utils.calculatePnL side none a b f = some 0 ∧
      Utils.calculatePnL side a none b f = some 0 ∧
      Utils.calculatePnL side a b none f = some 0 ∧
      Utils.calculatePnL side (some 0) a b f = some 0 ∧
      Utils.calculatePnL side a (some 0) b f = some 0 ∧
      Utils.calculatePnL side a b (some 0) f = some 0) ∧
    (∀ (side : Side) (e x q : JsNum),
      Utils.calculatePnL side e x q = Utils.calculatePnL side e x q (some 0)) ∧
    Utils.calculatePnL .buy (some 100) (some 110) (some 200) (some 5) = some 1995 ∧
    Utils.calculatePnL .sell (some 100) (some 90) (some 200) (some 0) = some 2000 := by
  refine ⟨?_, ?_, fun side e x q => rfl, ?_, ?_⟩
  · intro side e x q f he hx hq
    cases side <;> simp [Utils.calculatePnL, jsFalsy, jsub, jmul, jround, he, hx, hq]
  · intro side a b f
    refine ⟨?_, ?_, ?_, ?_, ?_, ?_⟩ <;> cases a <;> cases b <;>
      simp [Utils.calculatePnL, jsFalsy]
  · norm_num [Utils.calculatePnL, jsFalsy, jsub, jmul, jround, roundTo]
  · norm_num [Utils.calculatePnL, jsFalsy, jsub, jmul, jround, roundTo]

/-- C8 witness: the formula clause instantiated at
profitAndLoss(buy, 100, 110, 200, 5), which evaluates to 1995. -/
theorem calculatePnL_spec_witness :
    Utils.calculatePnL .buy (some 100) (some 110) (some 200) (some 5) =
      some (roundTo 2 ((match Side.buy with | .buy => (110 : ℚ) - 100 | .sell => 100 - 110) * 200 - 5)) ∧
    some (roundTo 2 ((match Side.buy with | .buy => (110 : ℚ) - 100 | .sell => 100 - 110) * 200 - 5)) =
      (some 1995 : JsNum) := by
  refine ⟨calculatePnL_spec.1 .buy 100 110 200 5 (by norm_num) (by norm_num) (by norm_num), ?_⟩
  norm_num [roundTo]

/-- C10 counterexample: the table-local duplicates disagree with the
Metrics Engine on zero inputs, which the claim includes: at entryPrice 0 the
table calculateRR returns 2 while the utils calculateRR returns 0, and at
quantity 0 with fee 5 the table calculatePnL returns -5 while the utils
calculatePnL returns 0. -/
theorem table_utils_divergence_cex :
    TableUtils.calculateRR (some 0) (some 5) (some 10) = some 2 ∧
    Utils.calculateRR (some 0) (some 5) (some 10) = some 0 ∧
    TableUtils.calculatePnL .buy (some 100) (some 110) (some 0) (some 5) = some (-5) ∧
    Utils.calculatePnL .buy (some 100) (some 110) (some 0) (some 5) = some 0 ∧
    (some (2 : ℚ) : JsNum) ≠ some 0 ∧ (some (-5 : ℚ) : JsNum) ≠ some 0 := by
  refine ⟨?_, ?_, ?_, ?_, by norm_num, by norm_num⟩
  · norm_num [TableUtils.calculateRR, jsub, jabs, jdiv, jround, roundTo, abs_div]
  · simp [Utils.calculateRR, jsFalsy]
  · norm_num [TableUtils.calculatePnL, jsub, jmul, jround, roundTo]
  · simp [Utils.calculatePnL, jsFalsy]

/-- C10 (amended): the table-local duplicate metric functions agree with
their Metrics Engine counterparts on all supplied, non-zero, numeric named
inputs (any fee value and either side); they diverge only on missing, zero
or NaN inputs, where the Metrics Engine returns 0 but the duplicates compute
through their unguarded formulas. -/
theorem table_utils_agree_on_nonzero :
    ∀ (side : Side) (e s t x q : ℚ) (f : JsNum), e ≠ 0 → s ≠ 0 → t ≠ 0 → x ≠ 0 → q ≠ 0 →
      TableUtils.calculateRR (some e) (some s) (some t) =
        Utils.calculateRR (some e) (some s) (some t) ∧
      TableUtils.calculateRealizedRR (some e) (some s) (some x) =
        Utils.calculateRealizedRR (some e) (some x) (some s) ∧
      TableUtils.calculatePnL side (some e) (some x) (some q) f =
        Utils.calculatePnL side (some e) (some x) (some q) f := by
  intro side e s t x q f he hs ht hx hq
  refine ⟨?_, ?_, ?_⟩
  · simp [TableUtils.calculateRR, Utils.calculateRR, jsFalsy, jsIsNaN, he, hs, ht]
  · simp [TableUtils.calculateRealizedRR, Utils.calculateRealizedRR, jsFalsy, he, hs, hx]
  · cases side <;>
      simp [TableUtils.calculatePnL, Utils.calculatePnL, jsFalsy, he, hx, hq]

/-- C10 witness: the agreement theorem instantiated at entry 100, stop 95,
take profit 110, exit 105, quantity 2, fee 1, side buy. -/
theorem table_utils_agree_on_nonzero_witness :
    TableUtils.calculateRR (some 100) (some 95) (some 110) =
      Utils.calculateRR (some 100) (some 95) (some 110) ∧
    TableUtils.calculateRealizedRR (some 100) (some 95) (some 105) =
      Utils.calculateRealizedRR (some 100) (some 105) (some 95) ∧
    TableUtils.calculatePnL .buy (some 100) (some 105) (some 2) (some 1) =
      Utils.calculatePnL .buy (some 100) (some 105) (some 2) (some 1) :=
  table_utils_agree_on_nonzero .buy 100 95 110 105 2 (some 1)
    (by norm_num) (by norm_num) (by norm_num) (by norm_num) (by norm_num)

lemma foldl_jadd_losing (l : List TradeRecord) :
    ∀ init : ℚ, (∀ t ∈ l, jlt t.pnl (some 0) = true) →
      ∃ q : ℚ, List.foldl (fun acc t => jadd acc t.pnl) (some init) l = some q ∧
        (l ≠ [] → q < init) ∧ (l = [] → q = init) := by
  induction l with
  | nil => intro init _; exact ⟨init, rfl, by simp, fun _ => rfl⟩
  | cons t ts ih =>
    intro init hall
    have ht := hall t (List.mem_cons_self t ts)
    obtain ⟨p, hp, hpneg⟩ : ∃ p : ℚ, t.pnl = some p ∧ p < 0 := by
      cases h : t.pnl with
      | none => rw [h] at ht; simp [jlt] at ht
      | some p =>
        rw [h] at ht
        simp only [jlt, decide_eq_true_eq] at ht
        exact ⟨p, rfl, ht⟩
    obtain ⟨q, hq, hlt, hnil⟩ := ih (init + p) (fun u hu => hall u (List.mem_cons_of_mem t hu))
    have hqinit : q < init := by
      rcases eq_or_ne ts [] with h | h
      · have := hnil h; linarith
      · have := hlt h; linarith
    exact ⟨q, by simpa [hp, jadd] using hq, fun _ => hqinit, by simp⟩

lemma foldl_jadd_some (l : List TradeRecord) :
    ∀ init : ℚ, (∀ t ∈ l, t.pnl ≠ none) →
      ∃ q : ℚ, List.foldl (fun acc t => jadd acc t.pnl) (some init) l = some q := by
  induction l with
  | nil => intro init _; exact ⟨init, rfl⟩
  | cons t ts ih =>
    intro init hall
    obtain ⟨p, hp⟩ := Option.ne_none_iff_exists.mp (hall t (List.mem_cons_self t ts))
    obtain ⟨q, hq⟩ := ih (init + p) (fun u hu => hall u (List.mem_cons_of_mem t hu))
    exact ⟨q, by simpa [← hp, jadd] using hq⟩

/-- C9 (amended): for every non-empty collection, profitFactor is infinite
exactly when the collection has no losing trade (no trade with pnl < 0), and
otherwise equals round(totalProfit / |totalLoss|, 2) where totalProfit sums
the pnl of trades with pnl > 0 and totalLoss the pnl of trades with pnl < 0;
the non-empty restriction is the amendment, since the stats of an empty
collection report profitFactor 0, not infinity. -/
theorem profitFactor_spec (trades : List TradeRecord) (hne : trades ≠ []) :
    ((¬ ∃ t ∈ trades, jlt t.pnl (some 0) = true) →
      (Utils.getTradeStats trades).profitFactor = some ⊤) ∧
    ((∃ t ∈ trades, jlt t.pnl (some 0) = true) →
      ∃ p l : ℚ,
        sumBy (fun t => t.pnl) (trades.filter (fun t => jgt t.pnl (some 0))) = some p ∧
        jabs (sumBy (fun t => t.pnl) (trades.filter (fun t => jlt t.pnl (some 0)))) = some l ∧
        0 < l ∧
        (Utils.getTradeStats trades).profitFactor =
          some ((roundTo 2 (p / l) : ℚ) : WithTop ℚ)) := by
  have hlen : ¬ trades.length = 0 := fun h => hne (List.length_eq_zero.mp h)
  constructor
  · intro hno
    have hfilter : trades.filter (fun t => jlt t.pnl (some 0)) = [] := by
      rw [List.filter_eq_nil_iff]
      intro t htmem hcontra
      exact hno ⟨t, htmem, hcontra⟩
    simp only [Utils.getTradeStats, if_neg hlen]
    simp [hfilter, sumBy, jabs]
  · rintro ⟨t0, ht0mem, ht0⟩
    have hmem : t0 ∈ trades.filter (fun t => jlt t.pnl (some 0)) :=
      List.mem_filter.mpr ⟨ht0mem, ht0⟩
    have hlne : trades.filter (fun t => jlt t.pnl (some 0)) ≠ [] :=
      List.ne_nil_of_mem hmem
    have hall : ∀ t ∈ trades.filter (fun t => jlt t.pnl (some 0)),
        jlt t.pnl (some 0) = true := fun t ht => (List.mem_filter.mp ht).2
    obtain ⟨ql, hql, hqllt, _⟩ :=
      foldl_jadd_losing (trades.filter (fun t => jlt t.pnl (some 0))) 0 hall
    have hqlneg : ql < 0 := hqllt hlne
    have hallw : ∀ t ∈ trades.filter (fun t => jgt t.pnl (some 0)), t.pnl ≠ none := by
      intro t ht hnone
      have := (List.mem_filter.mp ht).2
      rw [hnone] at this
      simp [jgt] at this
    obtain ⟨qp, hqp⟩ :=
      foldl_jadd_some (trades.filter (fun t => jgt t.pnl (some 0))) 0 hallw
    have hlabs : 0 < |ql| := abs_pos.mpr (ne_of_lt hqlneg)
    refine ⟨qp, |ql|, hqp, by simp [sumBy, hql, jabs], hlabs, ?_⟩
    simp only [Utils.getTradeStats, if_neg hlen]
    simp [sumBy, hqp, hql, jabs, jdiv, jround, abs_eq_zero, ne_of_lt hqlneg,
      ne_of_gt hlabs]

/-- C9 counterexample: the empty collection contains no losing trades, yet
getTradeStats returns profitFactor 0, not infinity, through its early
return. -/
theorem profitFactor_empty_cex :
    (Utils.getTradeStats ([] : List TradeRecord)).profitFactor =
      some ((0 : ℚ) : WithTop ℚ) ∧
    some ((0 : ℚ) : WithTop ℚ) ≠ (some ⊤ : Option (WithTop ℚ)) := by
  constructor
  · rfl
  · simp

/-- C9 witness: the theorem instantiated on a two-trade collection with one
loser (pnl -5) and one winner (pnl 10); the profit factor is
round(10 / 5, 2) = 2. -/
theorem profitFactor_spec_witness :
    [sampleTradeLoss, sampleTradeWin] ≠ ([] : List TradeRecord) ∧
    (∃ t ∈ [sampleTradeLoss, sampleTradeWin], jlt t.pnl (some 0) = true) ∧
    (Utils.getTradeStats [sampleTradeLoss, sampleTradeWin]).profitFactor =
      some ((2 : ℚ) : WithTop ℚ) := by
  have hne : [sampleTradeLoss, sampleTradeWin] ≠ ([] : List TradeRecord) := by simp
  have hex : ∃ t ∈ [sampleTradeLoss, sampleTradeWin], jlt t.pnl (some 0) = true :=
    ⟨sampleTradeLoss, by simp, by norm_num [sampleTradeLoss, sampleTradeWin, jlt]⟩
  obtain ⟨p, l, hp, hl, hlpos, hpf⟩ := (profitFactor_spec _ hne).2 hex
  have hp0 : sumBy (fun t => t.pnl)
      (([sampleTradeLoss, sampleTradeWin]).filter (fun t => jgt t.pnl (some 0))) = some 10 := by
    norm_num [sampleTradeLoss, sampleTradeWin, sumBy, jgt, jadd]
  have hl0 : jabs (sumBy (fun t => t.pnl)
      (([sampleTradeLoss, sampleTradeWin]).filter (fun t => jlt t.pnl (some 0)))) = some 5 := by
    norm_num [sampleTradeLoss, sampleTradeWin, sumBy, jlt, jadd, jabs]
  have hpv : p = 10 := by
    have := hp0.symm.trans hp
    exact (Option.some.inj this).symm
  have hlv : l = 5 := by
    have := hl0.symm.trans hl
    exact (Option.some.inj this).symm
  subst hpv hlv
  refine ⟨hne, hex, ?_⟩
  rw [hpf]
  norm_num [roundTo]

lemma tradeToJson_no_id (t : TradeRecord) : jsHasKey (tradeToJson t) "id" = false := by
  cases h : t.uid <;> simp [tradeToJson, jsHasKey, h]

/-- C2: the claim says export-then-import returns the original collection
and that the validator requires an identifier, symbol and entryPrice; but
TradeRecord serializes its identifier under the key "_id" (or omits it),
while the import validator of tradeExportImport.ts requires the legacy key
"id" on every element — so re-importing any non-empty exported collection is
rejected with "Invalid trades data: missing required fields" and the
round-trip never succeeds. -/
theorem export_import_roundtrip_rejected :
    ∀ trades : List TradeRecord, trades ≠ [] →
      exportImportRoundTrip trades =
        some (.error "Invalid trades data: missing required fields") := by
  intro trades hne
  cases trades with
  | nil => exact absurd rfl hne
  | cons t rest =>
    simp [exportImportRoundTrip, exportTrades, importTradesValidate, tradeToJson_no_id]

/-- C2 witness: the rejection theorem instantiated on a one-record
collection. -/
theorem export_import_roundtrip_rejected_witness :
    [sampleTradeWin] ≠ ([] : List TradeRecord) ∧
    exportImportRoundTrip [sampleTradeWin] =
      some (.error "Invalid trades data: missing required fields") :=
  ⟨by simp, export_import_roundtrip_rejected [sampleTradeWin] (by simp)⟩

lemma assocGet_assocSet (m : List (String × JsVal)) (k : String) (v : JsVal)
    (q : String) :
    assocGet (assocSet m k v) q = if q = k then some v else assocGet m q := by
  induction m with
  | nil =>
    by_cases h : q = k
    · simp [assocSet, assocGet, h]
    · simp [assocSet, assocGet, h, Ne.symm h]
  | cons kv rest ih =>
    obtain ⟨k0, v0⟩ := kv
    by_cases h0 : k0 = k
    · subst h0
      by_cases h1 : q = k0
      · subst h1
        simp [assocSet, assocGet]
      · simp [assocSet, assocGet, h1, Ne.symm h1]
    · by_cases h1 : q = k0
      · subst h1
        simp [assocSet, assocGet, h0, Ne.symm h0]
      · simp [assocSet, assocGet, h0, h1, Ne.symm h1, ih]

lemma setTradeField_entryPrice (t : TradeRecord) (x : JsNum) :
    setTradeField t "entryPrice" (.num x) = { t with entryPrice := x } := rfl

lemma setTradeField_stopLoss (t : TradeRecord) (x : JsNum) :
    setTradeField t "stopLoss" (.num x) = { t with stopLoss := x } := rfl

lemma setTradeField_takeProfit (t : TradeRecord) (x : JsNum) :
    setTradeField t "takeProfit" (.num x) = { t with takeProfit := x } := rfl

lemma setTradeField_exitPrice (t : TradeRecord) (x : JsNum) :
    setTradeField t "exitPrice" (.num x) = { t with exitPrice := x } := rfl

lemma utwc_entryPrice (trade : TradeRecord) (x : JsNum) :
    (updateTradeWithCalculations trade "entryPrice" (.num x)).rr =
      TableUtils.calculateRR x trade.stopLoss trade.takeProfit ∧
    (jsFalsy trade.exitPrice = false →
      (updateTradeWithCalculations trade "entryPrice" (.num x)).realizedRR =
        TableUtils.calculateRealizedRR x trade.stopLoss trade.exitPrice) := by
  constructor
  · simp only [updateTradeWithCalculations, setTradeField_entryPrice, jsToNumber]
    norm_num
    repeat' split
    all_goals simp_all
  · intro h
    simp only [updateTradeWithCalculations, setTradeField_entryPrice, jsToNumber]
    norm_num [h]
    repeat' split
    all_goals simp_all

lemma utwc_stopLoss (trade : TradeRecord) (x : JsNum) :
    (updateTradeWithCalculations trade "stopLoss" (.num x)).rr =
      TableUtils.calculateRR trade.entryPrice x trade.takeProfit ∧
    (jsFalsy trade.exitPrice = false →
      (updateTradeWithCalculations trade "stopLoss" (.num x)).realizedRR =
        TableUtils.calculateRealizedRR trade.entryPrice x trade.exitPrice) := by
  constructor
  · simp only [updateTradeWithCalculations, setTradeField_stopLoss, jsToNumber]
    norm_num
    repeat' split
    all_goals simp_all
  · intro h
    simp only [updateTradeWithCalculations, setTradeField_stopLoss, jsToNumber]
    norm_num [h]
    repeat' split
    all_goals simp_all

lemma utwc_takeProfit (trade : TradeRecord) (x : JsNum) :
    (updateTradeWithCalculations trade "takeProfit" (.num x)).rr =
      TableUtils.calculateRR trade.entryPrice trade.stopLoss x := by
  simp only [updateTradeWithCalculations, setTradeField_takeProfit, jsToNumber]
  norm_num
  repeat' split
  all_goals simp_all

lemma utwc_exitPrice (trade : TradeRecord) (x : JsNum) :
    (updateTradeWithCalculations trade "exitPrice" (.num x)).rr = trade.rr ∧
    (updateTradeWithCalculations trade "exitPrice" (.num x)).realizedRR =
      trade.realizedRR := by
  refine ⟨?_, ?_⟩ <;>
  · simp only [updateTradeWithCalculations, setTradeField_exitPrice, jsToNumber]
    norm_num
    repeat' split
    all_goals simp_all

/-- C3 counterexample: the store updateFormField leaves rr untouched — after
writing entryPrice 200 into a draft whose rr is 2, the draft still carries
rr 2 although calculateRR(200, 95, 110) = 0.86; and the cell-edit path does
not recompute realizedRR on an exitPrice edit — after writing exitPrice 120
into a trade whose realizedRR is 1, the record still carries realizedRR 1
although the table calculateRealizedRR(100, 95, 120) = 4. -/
theorem updateFormField_no_recompute_cex :
    assocGet (updateFormField sampleDraftState "entryPrice" (.num (some 200))).formData "rr" =
      some (.num (some 2)) ∧
    Utils.calculateRR (some 200) (some 95) (some 110) = some (43 / 50) ∧
    (2 : ℚ) ≠ 43 / 50 ∧
    (updateTradeWithCalculations sampleTradeWithExit "exitPrice" (.num (some 120))).realizedRR =
      some 1 ∧
    TableUtils.calculateRealizedRR (some 100) (some 95) (some 120) = some 4 ∧
    (1 : ℚ) ≠ 4 := by
  refine ⟨?_, ?_, by norm_num, ?_, ?_, by norm_num⟩
  · simp [sampleDraftState, updateFormField, assocSet, assocGet]
  · norm_num [Utils.calculateRR, jsFalsy, jsIsNaN, jsub, jabs, jdiv, jround, roundTo, abs_div]
  · rw [(utwc_exitPrice sampleTradeWithExit (some 120)).2]
    norm_num [sampleTradeWithExit, sampleTradeWin]
  · norm_num [TableUtils.calculateRealizedRR, jsub, jabs, jdiv, jround, roundTo, abs_div]

/-- C3 (amended): the store updateFormField performs no recomputation — it
only merges the field, clears the validation error of that field and the
form error, leaving the rr and realizedRR entries of the draft unchanged
(for any edited field other than rr and realizedRR themselves); derived
fields are recomputed only in the table cell-edit path, where an edit of
entryPrice, stopLoss or takeProfit recomputes rr (and realizedRR when an
exit price is present), while an edit of exitPrice recomputes neither rr nor
realizedRR. -/
theorem recompute_only_in_cell_edit_path :
    (∀ (st : StoreState) (field : String) (v : JsVal), field ≠ "rr" → field ≠ "realizedRR" →
      assocGet (updateFormField st field v).formData "rr" = assocGet st.formData "rr" ∧
      assocGet (updateFormField st field v).formData "realizedRR" =
        assocGet st.formData "realizedRR") ∧
    (∀ (trade : TradeRecord) (x : JsNum),
      ((updateTradeWithCalculations trade "entryPrice" (.num x)).rr =
          TableUtils.calculateRR x trade.stopLoss trade.takeProfit ∧
        (jsFalsy trade.exitPrice = false →
          (updateTradeWithCalculations trade "entryPrice" (.num x)).realizedRR =
            TableUtils.calculateRealizedRR x trade.stopLoss trade.exitPrice)) ∧
      ((updateTradeWithCalculations trade "stopLoss" (.num x)).rr =
          TableUtils.calculateRR trade.entryPrice x trade.takeProfit ∧
        (jsFalsy trade.exitPrice = false →
          (updateTradeWithCalculations trade "stopLoss" (.num x)).realizedRR =
            TableUtils.calculateRealizedRR trade.entryPrice x trade.exitPrice)) ∧
      ((updateTradeWithCalculations trade "takeProfit" (.num x)).rr =
          TableUtils.calculateRR trade.entryPrice trade.stopLoss x) ∧
      ((updateTradeWithCalculations trade "exitPrice" (.num x)).rr = trade.rr ∧
        (updateTradeWithCalculations trade "exitPrice" (.num x)).realizedRR =
          trade.realizedRR)) := by
  constructor
  · intro st field v hrr hrrr
    constructor
    · simp [updateFormField, assocGet_assocSet, Ne.symm hrr]
    · simp [updateFormField, assocGet_assocSet, Ne.symm hrrr]
  · intro trade x
    exact ⟨utwc_entryPrice trade x, utwc_stopLoss trade x, utwc_takeProfit trade x,
      utwc_exitPrice trade x⟩

/-- C3 witness: the amended theorem instantiated on the sample draft state
(entryPrice edit leaves the rr entry unchanged) and on the sample trade
(entryPrice cell edit recomputes rr through the table calculateRR). -/
theorem recompute_only_in_cell_edit_path_witness :
    assocGet (updateFormField sampleDraftState "entryPrice" (.num (some 200))).formData "rr" =
      assocGet sampleDraftState.formData "rr" ∧
    (updateTradeWithCalculations sampleTradeWithExit "entryPrice" (.num (some 200))).rr =
      TableUtils.calculateRR (some 200) sampleTradeWithExit.stopLoss
        sampleTradeWithExit.takeProfit :=
  ⟨(recompute_only_in_cell_edit_path.1 sampleDraftState "entryPrice" (.num (some 200))
      (by decide) (by decide)).1,
   (recompute_only_in_cell_edit_path.2 sampleTradeWithExit (some 200)).1.1⟩

/-- C4: submitting the form for a buy trade whose stopLoss is at or above
its entryPrice (with the base fields otherwise valid) produces the
field-level error "For buy orders, stop loss must be below entry price"
keyed to stopLoss in the validation result, the submission pipeline rejects
with exactly those field errors, and it performs zero create network calls. -/
theorem buy_stopLoss_validation_blocks_network :
    ∀ (v : TradeFormValues) (e s t : ℚ),
      v.side = .buy →
      v.entryPrice = some e → v.stopLoss = some s → v.takeProfit = some t →
      e ≤ s →
      1 ≤ v.symbol.length → 0 ≤ e → 0 ≤ s → 0 ≤ t →
      (v.riskAmount = none ∨ ∃ r : ℚ, v.riskAmount = some (some r) ∧ 0 ≤ r) →
      ("stopLoss", "For buy orders, stop loss must be below entry price") ∈
        validateTradeForm v ∧
      handleTradeSubmit v = .rejected (validateTradeForm v) ∧
      createNetworkCalls (handleTradeSubmit v) = 0 := by
  intro v e s t hside he hs ht hle hsym he0 hs0 ht0 hrisk
  have hbase : tradeFormBaseIssues v = [] := by
    rcases hrisk with hr | ⟨r, hr, hr0⟩
    · simp [tradeFormBaseIssues, he, hs, ht, hr, not_lt.mpr hsym, not_lt.mpr he0,
        not_lt.mpr hs0, not_lt.mpr ht0]
    · simp [tradeFormBaseIssues, he, hs, ht, hr, not_lt.mpr hsym, not_lt.mpr he0,
        not_lt.mpr hs0, not_lt.mpr ht0, not_lt.mpr hr0]
  have hval : validateTradeForm v = tradeFormRefineIssues v := by
    simp [validateTradeForm, hbase]
  have hmem : ("stopLoss", "For buy orders, stop loss must be below entry price") ∈
      tradeFormRefineIssues v := by
    simp only [tradeFormRefineIssues, he, hs, ht, hside]
    rw [if_neg (not_lt.mpr hle)]
    exact List.mem_append_left _ (List.mem_singleton.mpr rfl)
  have hne : ¬ (validateTradeForm v).isEmpty = true := by
    rw [hval]
    rw [List.isEmpty_iff]
    exact List.ne_nil_of_mem hmem
  refine ⟨hval ▸ hmem, ?_, ?_⟩
  · simp [handleTradeSubmit, hne]
  · simp [handleTradeSubmit, hne, createNetworkCalls]

/-- C4 witness: the theorem instantiated on a concrete buy form with
entryPrice 100 and stopLoss 102. -/
theorem buy_stopLoss_validation_blocks_network_witness :
    ("stopLoss", "For buy orders, stop loss must be below entry price") ∈
      validateTradeForm sampleBuyBadStop ∧
    handleTradeSubmit sampleBuyBadStop = .rejected (validateTradeForm sampleBuyBadStop) ∧
    createNetworkCalls (handleTradeSubmit sampleBuyBadStop) = 0 :=
  buy_stopLoss_validation_blocks_network sampleBuyBadStop 100 102 110 rfl rfl rfl rfl
    (by norm_num) (by decide) (by norm_num) (by norm_num) (by norm_num)
    (Or.inl rfl)

/-- C5: deleteTrade first optimistically removes every record carrying the
given identifier, and when the delete request fails it records the error in
some intermediate state and ends by replacing the collection with the full
server reload — so a record the server still holds under that identifier
reappears in the final state (strict rollback). -/
theorem deleteTrade_failure_reloads :
    ∀ (st : StoreState) (id : String) (status : ℕ) (statusText : String)
      (server : List TradeRecord) (r : TradeRecord),
      r ∈ server → r.uid = some id →
      (∃ s ∈ deleteTradeTrace st id (.httpError status statusText) (.ok server),
        s.trades = st.trades.filter (fun t => t.uid != some id) ∧
        ∀ t ∈ s.trades, t.uid ≠ some id) ∧
      (∃ s ∈ deleteTradeTrace st id (.httpError status statusText) (.ok server),
        s.error = some ("Failed to delete trade: " ++ toString status ++ " " ++ statusText)) ∧
      (finalState (deleteTradeTrace st id (.httpError status statusText) (.ok server))
          st).trades = server.map mapFetchedTrade ∧
      mapFetchedTrade r ∈
        (finalState (deleteTradeTrace st id (.httpError status statusText) (.ok server))
          st).trades ∧
      (mapFetchedTrade r).uid = some id := by
  intro st id status statusText server r hrs hrid
  refine ⟨?_, ?_, ?_, ?_, ?_⟩
  · refine ⟨_, List.mem_cons_of_mem _ (List.mem_cons_self _ _), rfl, ?_⟩
    intro t ht hcontra
    have := List.mem_filter.mp ht
    rw [hcontra] at this
    simp at this
  · exact ⟨_, List.mem_cons_of_mem _ (List.mem_cons_of_mem _ (List.mem_cons_self _ _)), rfl⟩
  · rfl
  · exact List.mem_map_of_mem mapFetchedTrade hrs
  · simpa [mapFetchedTrade] using hrid

/-- C5 witness: the theorem instantiated on a store holding one trade with
identifier t1, a failing delete, and a server reload still containing that
trade. -/
theorem deleteTrade_failure_reloads_witness :
    sampleTradeWithExit ∈ [sampleTradeWithExit] ∧
    sampleTradeWithExit.uid = some "t1" ∧
    (finalState (deleteTradeTrace sampleStoreState "t1" (.httpError 500 "Server Error")
        (.ok [sampleTradeWithExit])) sampleStoreState).trades =
      [sampleTradeWithExit].map mapFetchedTrade ∧
    mapFetchedTrade sampleTradeWithExit ∈
      (finalState (deleteTradeTrace sampleStoreState "t1" (.httpError 500 "Server Error")
        (.ok [sampleTradeWithExit])) sampleStoreState).trades := by
  have h := deleteTrade_failure_reloads sampleStoreState "t1" 500 "Server Error"
    [sampleTradeWithExit] sampleTradeWithExit (by simp) (by decide)
  exact ⟨by simp, by decide, h.2.2.1, h.2.2.2.1⟩

/-- C6: when the create request issued by addTrade fails, the final store
state still contains the optimistically appended record (the collection is
exactly the old collection plus the new record) and the error field holds a
non-empty message. -/
theorem addTrade_failure_keeps_optimistic :
    ∀ (st : StoreState) (trade : TradeRecord) (status : ℕ) (statusText : String),
      (finalState (addTradeTrace st trade (.httpError status statusText)) st).trades =
        st.trades ++ [trade] ∧
      trade ∈ (finalState (addTradeTrace st trade (.httpError status statusText)) st).trades ∧
      ∃ msg, (finalState (addTradeTrace st trade (.httpError status statusText)) st).error =
        some msg ∧ msg ≠ "" := by
  intro st trade status statusText
  refine ⟨rfl, ?_, ⟨_, rfl, ?_⟩⟩
  · show trade ∈ st.trades ++ [trade]
    exact List.mem_append_right _ (List.mem_singleton.mpr rfl)
  · intro hcontra
    have hlen := congrArg String.length hcontra
    rw [String.length_append, String.length_append] at hlen
    simp at hlen
    exact absurd hlen.1.1.1 (by decide)
